import Mathlib

/-!
Verification of the CommandStrike LLM client (`src/command_strike/src/llm.rs`)
against its natural-language specification.

Shallow embedding conventions:
* Rust `String`/`&str` values are modelled as `List Char` (`RStr`).  Every
  string operation the claims touch (`find`/`rfind` of `'\n'`, slicing at
  those positions, stripping one leading/trailing backtick, prefix removal)
  cuts at single-byte ASCII characters, so byte-index slicing in the source
  and character-index slicing in the model produce the same substrings and
  the same panic conditions.
* Rust `trim` is modelled over the ASCII whitespace characters that the
  claims exercise (space, tab, newline, carriage return).
* Fallible Rust code (`Result`, panics) is modelled with `Except`/`Option`;
  `none` marks a panic (an out-of-bounds slice index).
* Network I/O is modelled by passing in the remote side's behaviour as an
  explicit environment value, and (where a claim is about which calls are
  made) by returning the ordered trace of issued requests.
-/

/-- Rust strings, as lists of characters. -/
abbrev RStr := List Char

/-- String-literal helper. -/
def str (s : String) : RStr := s.toList

/-- The backtick character (written via its code point). -/
def bq : Char := Char.ofNat 96

/-- The triple-backtick fence marker `` ``` ``. -/
def fenceMark : RStr := [bq, bq, bq]

/-- ASCII whitespace, the subset of Rust's `char::is_whitespace` the claims
exercise. -/
def isWs (c : Char) : Bool := c == ' ' || c == '\t' || c == '\n' || c == '\r'

/-- Rust `str::trim`: drop leading and trailing whitespace. -/
def trimStr (s : RStr) : RStr :=
  (((s.dropWhile isWs).reverse).dropWhile isWs).reverse

/-- Index of the first occurrence of `c` (Rust `str::find` on a char). -/
def findIdx (s : RStr) (c : Char) : Option Nat :=
  s.findIdx? (· == c)

/-- Index of the last occurrence of `c` (Rust `str::rfind` on a char). -/
def rfindIdx (s : RStr) (c : Char) : Option Nat :=
  match s.reverse.findIdx? (· == c) with
  | none => none
  | some i => some (s.length - 1 - i)

/-- `OllamaConfig` (`llm.rs` lines 19-30).  `temperature` is an `f32` in the
source; it is modelled as a rational, which is exact for the values and the
`max`/`min` clamping the claims are about (no rounding occurs). -/
structure OllamaConfig where
  api_url : RStr
  model : RStr
  temperature : ℚ
  max_tokens : ℕ
  timeout_secs : ℕ
deriving DecidableEq

/-- `OllamaConfig::default()` (`llm.rs` lines 32-42); `0.7 = 7/10`. -/
def defaultConfig : OllamaConfig :=
  { api_url := str "http://localhost:11434"
    model := str "gemma3:12b"
    temperature := 7/10
    max_tokens := 2048
    timeout_secs := 120 }

/-- `OllamaClient::set_temperature` (`llm.rs` lines 177-182):
`temperature.max(0.0).min(1.0)` stored into the config.  Rust's `f32::max`
and `f32::min` ignore a NaN argument, so for every non-NaN input the rational
model below is exact (and a NaN input also stores `0.0`, inside the range). -/
def set_temperature (cfg : OllamaConfig) (temperature : ℚ) : OllamaConfig :=
  { cfg with temperature := min (max temperature 0) 1 }

/-- `HistoryItem` (`llm.rs` lines 107-111). -/
structure HistoryItem where
  user_input : RStr
  command : RStr
  result : RStr
deriving DecidableEq

/-- One iteration of the history loop in `OllamaClient::generate_command`
(`llm.rs` lines 202-209): `format!("Request {}: {}\nCommand: {}\nResult: {}\n\n",
i + 1, item.user_input, item.command, item.result)`. -/
def renderHistoryItem (i : ℕ) (item : HistoryItem) : RStr :=
  str "Request " ++ (Nat.repr (i + 1)).toList ++ str ": " ++ item.user_input
    ++ str "\nCommand: " ++ item.command
    ++ str "\nResult: " ++ item.result ++ str "\n\n"

/-- The `enumerate`d rendering loop over `history.iter().rev().take(3)`. -/
def renderHistoryItems : ℕ → List HistoryItem → RStr
  | _, [] => []
  | i, item :: rest => renderHistoryItem i item ++ renderHistoryItems (i + 1) rest

/-- The history-context block built in `OllamaClient::generate_command`
(`llm.rs` lines 200-213). -/
def history_context (history : List HistoryItem) : RStr :=
  if history.isEmpty then str "No previous interaction history."
  else str "Here are some previous interactions:\n\n"
    ++ renderHistoryItems 0 (history.reverse.take 3)

/-- The recognized shell-language specifiers, in source order
(`llm.rs` line 484: `["sh ", "bash ", "shell "]`). -/
def stripLang (s : RStr) : RStr :=
  if (str "sh ").isPrefixOf s then s.drop 3
  else if (str "bash ").isPrefixOf s then s.drop 5
  else if (str "shell ").isPrefixOf s then s.drop 6
  else s

/-- The fence / inline-backtick stripping block of
`OllamaClient::clean_command_response` (`llm.rs` lines 470-481).
`none` models a Rust slice panic:
* in the fence branch, `cleaned[start_pos+1..end_pos]` panics exactly when
  `start_pos + 1 > end_pos`, i.e. when the trimmed text contains a single
  newline (e.g. `"```\n```"`);
* in the inline branch, `cleaned[1..cleaned.len()-1]` panics exactly when
  the trimmed text is the one-character string `` "`" ``.
Both slices otherwise fall on (single-byte) character boundaries, so the
character-index model returns the same substring as the byte-index source. -/
def stripQuoting (cleaned : RStr) : Option RStr :=
  if fenceMark.isPrefixOf cleaned && fenceMark.isSuffixOf cleaned then
    match findIdx cleaned '\n' with
    | none => some cleaned
    | some s =>
      match rfindIdx cleaned '\n' with
      | none => some cleaned
      | some e =>
        if s + 1 > e then none
        else some (trimStr ((cleaned.drop (s + 1)).take (e - (s + 1))))
  else if cleaned.head? == some bq && cleaned.getLast? == some bq then
    if cleaned.length < 2 then none
    else some (trimStr ((cleaned.drop 1).take (cleaned.length - 2)))
  else some cleaned

/-- `OllamaClient::clean_command_response` (`llm.rs` lines 466-493):
trim, strip a fenced block or one pair of inline backticks, strip the first
matching shell-language specifier, trim again.  `none` models a panic. -/
def clean_command_response (response : RStr) : Option RStr :=
  (stripQuoting (trimStr response)).map (fun c => trimStr (stripLang c))

/-- Whether a string starts with one of the recognized language specifiers. -/
def startsLang (s : RStr) : Bool :=
  (str "sh ").isPrefixOf s || (str "bash ").isPrefixOf s || (str "shell ").isPrefixOf s

/-- `OllamaResponse` (`llm.rs` lines 146-152): one decoded frame.  The
`model` field is carried but ignored by the client (`#[allow(dead_code)]`). -/
structure OllamaResponse where
  model : RStr
  response : RStr
  done : Bool
deriving DecidableEq

/-- One chunk yielded by `resp.bytes_stream()` in the success path of
`OllamaClient::stream_response`.  `badUtf8` models a chunk rejected by
`String::from_utf8` (silently skipped); `text` carries the outcome of
`serde_json::from_str::<OllamaResponse>` for each of the chunk's lines
(`none` = unparseable line, silently skipped). -/
inductive ChunkData where
  | badUtf8
  | text (lines : List (Option OllamaResponse))
deriving DecidableEq

/-- One `chunk_result` from the `while let Some(chunk_result) = stream.next()`
loop: a chunk or a mid-stream transport error. -/
inductive ChunkResult where
  | ok (chunk : ChunkData)
  | err (e : RStr)
deriving DecidableEq

instance {ε α : Type} [DecidableEq ε] [DecidableEq α] : DecidableEq (Except ε α) :=
  fun a b =>
    match a, b with
    | .ok x, .ok y =>
      if h : x = y then .isTrue (by rw [h]) else .isFalse (by intro hh; cases hh; exact h rfl)
    | .ok _, .error _ => .isFalse (by intro h; cases h)
    | .error _, .ok _ => .isFalse (by intro h; cases h)
    | .error x, .error y =>
      if h : x = y then .isTrue (by rw [h]) else .isFalse (by intro hh; cases hh; exact h rfl)

/-- Behaviour of the remote side for one streaming call: the initial
`send()` fails, or a response arrives with a status, the error-body read
used in the non-success branch, and the body's chunk sequence. -/
inductive StreamEnv where
  | sendErr (e : RStr)
  | httpResponse (statusOk : Bool) (errBody : Except RStr RStr) (chunks : List ChunkResult)
deriving DecidableEq

/-- Observable actions of the producer task, in program order: fragments
pushed onto the `mpsc` channel, and writes of the `final_response` slot. -/
inductive StreamEvent where
  | send (s : RStr)
  | write (s : RStr)
deriving DecidableEq

/-- The inner `for line in text.lines()` loop (`llm.rs` lines 384-393):
each parseable line's fragment is sent on the channel and appended to
`full_response`; a frame with `done == true` breaks out of this (inner)
loop, discarding the chunk's remaining lines.  Returns (fragments sent,
text appended). -/
def processLines : List (Option OllamaResponse) → List RStr × RStr
  | [] => ([], [])
  | none :: rest => processLines rest
  | some r :: rest =>
    if r.done then ([r.response], r.response)
    else
      let p := processLines rest
      (r.response :: p.1, r.response ++ p.2)

/-- The outer `while let Some(chunk_result) = stream.next()` loop
(`llm.rs` lines 379-401).  A `done` frame only breaks the inner line loop,
so processing continues with the next chunk; a mid-stream transport error
sends one `"Stream error: ..."` diagnostic fragment and breaks the outer
loop.  Returns (fragments sent, accumulated `full_response`). -/
def processChunks : List ChunkResult → List RStr × RStr
  | [] => ([], [])
  | .ok .badUtf8 :: rest => processChunks rest
  | .ok (.text lines) :: rest =>
    let p1 := processLines lines
    let p2 := processChunks rest
    (p1.1 ++ p2.1, p1.2 ++ p2.2)
  | .err e :: _ => ([str "Stream error: " ++ e], [])

/-- The detached producer task of `OllamaClient::stream_response`
(`llm.rs` lines 354-407), as its ordered event trace.  On send failure or a
non-success status it pushes one diagnostic fragment and returns — without
writing `final_response`; only the success path falls through to the single
`*guard = Some(full_response)` write after the loop. -/
def stream_response_producer : StreamEnv → List StreamEvent
  | .sendErr e => [.send (str "Error: " ++ e)]
  | .httpResponse statusOk errBody chunks =>
    if statusOk then
      let p := processChunks chunks
      p.1.map StreamEvent.send ++ [.write p.2]
    else
      [.send (str "API Error: " ++
        (match errBody with
         | .ok t => t
         | .error e => str "Failed to read error response: " ++ e))]

/-- The fragments pushed onto the channel, in order. -/
def sends (evs : List StreamEvent) : List RStr :=
  evs.filterMap (fun e => match e with | .send s => some s | .write _ => none)

/-- The values written into the `final_response` slot, in order. -/
def slotWrites (evs : List StreamEvent) : List RStr :=
  evs.filterMap (fun e => match e with | .write s => some s | .send _ => none)

/-- Whether the streaming call's HTTP exchange reached the success path. -/
def isSuccessStatus : StreamEnv → Bool
  | .httpResponse ok _ _ => ok
  | .sendErr _ => false

/-- The fixture environment of the streaming tests: a successful response
whose chunks all decode, frame lists given per chunk. -/
def fixtureStream (cs : List (List OllamaResponse)) (b : Except RStr RStr) : StreamEnv :=
  .httpResponse true b (cs.map (fun c => .ok (.text (c.map some))))

/-- The failure taxonomy of `OllamaClient::generate_with_timeout`
(`llm.rs` lines 441-460), by the `context`/`bail!` site that produces it. -/
inductive GenError where
  | timedOut
  | sendFailed (e : RStr)
  | readFailed (e : RStr)
  | service (body : RStr)
  | malformed
deriving DecidableEq

/-- The HTTP response available to the synchronous invoker: its status, the
outcome of reading the body text, and the outcome of parsing that text as an
`OllamaResponse` (consulted only when the read succeeded). -/
structure GenHttpResp where
  statusOk : Bool
  textRead : Except RStr RStr
  parsed : Option OllamaResponse
deriving DecidableEq

/-- The transport's behaviour for one synchronous call: how many time units
it takes to produce an outcome, and that outcome. -/
structure GenEnv where
  delay : ℕ
  send : Except RStr GenHttpResp
deriving DecidableEq

/-- `OllamaClient::generate_with_timeout` (`llm.rs` lines 416-463).  The
`tokio::time::timeout` wrapper fires first when the transport is slower than
`config.timeout_secs` (modelled in discrete time units); otherwise the send
outcome, status check, body read, and JSON parse are handled in source
order, and the success value is the frame's `response` field, trimmed.
(The `reqwest` client itself is also built with the same timeout, `llm.rs`
line 163; the outer wrapper's deadline is the earlier of the two, so the
elapsed case surfaces as the wrapper's timeout error.) -/
def generate_with_timeout (cfg : OllamaConfig) (env : GenEnv) : Except GenError RStr :=
  if cfg.timeout_secs < env.delay then .error .timedOut
  else
    match env.send with
    | .error e => .error (.sendFailed e)
    | .ok resp =>
      if !resp.statusOk then
        match resp.textRead with
        | .error e => .error (.readFailed e)
        | .ok t => .error (.service t)
      else
        match resp.textRead with
        | .error e => .error (.readFailed e)
        | .ok _ =>
          match resp.parsed with
          | none => .error .malformed
          | some r => .ok (trimStr r.response)

/-- Errors surfaced by the model-registry helpers `validate_model` and
`pull_model` (`llm.rs` lines 541-601). -/
inductive ApiErr where
  | connect (e : RStr)
  | pullFailed (body : RStr)
deriving DecidableEq

/-- The remote side of one `GET /api/tags` call: the send fails, or a
response arrives with a status and (for a success status) the outcome of
decoding the body into the model-name list. -/
inductive TagsEnv where
  | sendErr
  | resp (statusOk : Bool) (decoded : Option (List RStr))
deriving DecidableEq

/-- `validate_model` (`llm.rs` lines 541-570): every failure — send error,
non-success status, undecodable body — degrades to `Ok(false)`; a decoded
catalog answers `models.iter().any(|m| m.name == model)`. -/
def validate_model (env : TagsEnv) (model : RStr) : Except ApiErr Bool :=
  match env with
  | .sendErr => .ok false
  | .resp statusOk decoded =>
    if !statusOk then .ok false
    else
      match decoded with
      | none => .ok false
      | some names => .ok (names.contains model)

/-- What a catalog environment actually contains: `true` exactly for a
successfully decoded success response whose name list contains `model`. -/
def catalogHas : TagsEnv → RStr → Bool
  | .resp true (some names), model => names.contains model
  | _, _ => false

/-- The network calls `pull_model` can issue, plus its grace-period sleep,
as trace events. -/
inductive NetCall where
  | getTags
  | postPull (name : RStr)
  | sleepSecs (n : ℕ)
deriving DecidableEq

/-- `validate_model` with the request it issues: one `GET /api/tags`. -/
def validate_model_t (env : TagsEnv) (model : RStr) : Except ApiErr Bool × List NetCall :=
  (validate_model env model, [.getTags])

/-- The remote side of the `POST /api/pull` call in `pull_model`. -/
structure PullHttpResp where
  statusOk : Bool
  textRead : Except RStr RStr
deriving DecidableEq

/-- The environment of one `pull_model` call: the catalog behaviour seen by
the first validation, the pull request's outcome, and the catalog behaviour
seen by the re-validation. -/
structure PullEnv where
  tags1 : TagsEnv
  pullReq : Except RStr PullHttpResp
  tags2 : TagsEnv
deriving DecidableEq

/-- `pull_model` (`llm.rs` lines 573-601), with its request trace.  If the
first validation says the model is present it returns `Ok(true)` right away
(having issued only that validation's `GET /api/tags`); otherwise it POSTs
`/api/pull` (send failure and non-success status are hard errors, the
error body read defaulting to `"Unknown error"`), sleeps 2 seconds, and
returns the re-validation's verdict. -/
def pull_model (env : PullEnv) (model : RStr) : Except ApiErr Bool × List NetCall :=
  let v1 := validate_model_t env.tags1 model
  match v1.1 with
  | .error e => (.error e, v1.2)
  | .ok true => (.ok true, v1.2)
  | .ok false =>
    match env.pullReq with
    | .error e => (.error (.connect e), v1.2 ++ [.postPull model])
    | .ok resp =>
      if !resp.statusOk then
        (.error (.pullFailed (match resp.textRead with
          | .ok t => t
          | .error _ => str "Unknown error")), v1.2 ++ [.postPull model])
      else
        let v2 := validate_model_t env.tags2 model
        (v2.1, v1.2 ++ [.postPull model, .sleepSecs 2] ++ v2.2)

/-- Concrete fixtures used by witness theorems below. -/
def genRespW : GenHttpResp :=
  ⟨true, Except.ok (str "frame"), some ⟨str "gemma3:12b", str "  ls -la\n", true⟩⟩

def genEnvW : GenEnv := ⟨0, Except.ok genRespW⟩

def genEnvSlowW : GenEnv := ⟨3, Except.ok genRespW⟩

def pullEnvPresentW : PullEnv :=
  ⟨.resp true (some [str "gemma3:12b", str "llama3:8b"]), Except.error (str "unused"), .sendErr⟩

def pullEnvAbsentW : PullEnv :=
  ⟨.resp true (some [str "llama3:8b"]), Except.ok ⟨true, Except.ok (str "pulling")⟩,
   .resp true (some [str "llama3:8b", str "gemma3:12b"])⟩

/-- C6: after `set_temperature` runs with any input, the stored temperature
lies in `[0, 1]`; setting `-5.0` stores `0`, setting `5.0` stores `1`, and
setting `0.42` stores `0.42`. -/
theorem set_temperature_clamps :
    (∀ (cfg : OllamaConfig) (t : ℚ),
      0 ≤ (set_temperature cfg t).temperature ∧ (set_temperature cfg t).temperature ≤ 1) ∧
    (∀ cfg : OllamaConfig, (set_temperature cfg (-5)).temperature = 0) ∧
    (∀ cfg : OllamaConfig, (set_temperature cfg 5).temperature = 1) ∧
    (∀ cfg : OllamaConfig, (set_temperature cfg 0.42).temperature = 0.42) := by
  refine ⟨fun cfg t => ⟨?_, ?_⟩, fun cfg => ?_, fun cfg => ?_, fun cfg => ?_⟩
  · exact le_min (le_max_right t 0) zero_le_one
  · exact min_le_right _ _
  · simp [set_temperature]
  · norm_num [set_temperature]
  · norm_num [set_temperature]

/-- C5: the history block is the fixed sentinel on an empty history; it
depends only on the 3 most recent items; and it renders those items
most-recent-first as numbered request/command/result triplets. -/
theorem history_context_spec :
    (history_context [] = str "No previous interaction history.") ∧
    (∀ (pre post : List HistoryItem), 3 ≤ post.length →
      history_context (pre ++ post) = history_context post) ∧
    (∀ a b c : HistoryItem,
      history_context [a, b, c] =
        str "Here are some previous interactions:\n\n"
          ++ (renderHistoryItem 0 c ++ (renderHistoryItem 1 b ++ (renderHistoryItem 2 a ++ [])))) := by
  refine ⟨rfl, ?_, ?_⟩
  · intro pre post h
    have hpost : post ≠ [] := by
      intro hh; subst hh; simp at h
    have happ : pre ++ post ≠ [] := List.append_ne_nil_of_right_ne_nil pre hpost
    have htake : (post.reverse ++ pre.reverse).take 3 = post.reverse.take 3 :=
      List.take_eq_left_iff.mpr (Or.inr (by simpa using h))
    simp only [history_context, List.isEmpty_eq_false.mpr hpost,
      List.isEmpty_eq_false.mpr happ, if_false, Bool.false_eq_true,
      List.reverse_append, htake]
  · intro a b c
    simp [history_context, renderHistoryItems]

theorem history_context_spec_witness :
    3 ≤ ([⟨str "r2", str "c2", str "o2"⟩, ⟨str "r3", str "c3", str "o3"⟩,
          ⟨str "r4", str "c4", str "o4"⟩] : List HistoryItem).length ∧
    history_context ([⟨str "r1", str "c1", str "o1"⟩] ++
        [⟨str "r2", str "c2", str "o2"⟩, ⟨str "r3", str "c3", str "o3"⟩,
         ⟨str "r4", str "c4", str "o4"⟩]) =
      history_context
        [⟨str "r2", str "c2", str "o2"⟩, ⟨str "r3", str "c3", str "o3"⟩,
         ⟨str "r4", str "c4", str "o4"⟩] :=
  ⟨by decide, history_context_spec.2.1 _ _ (by decide)⟩

/-- C7: `validate_model` never returns an error: transport failure,
non-success status, and decode failure all yield `Ok(false)`, and a decoded
catalog yields `Ok(true)` exactly when the name appears in it. -/
theorem validate_model_total_spec :
    ∀ model : RStr,
      (∀ env : TagsEnv, validate_model env model = .ok (catalogHas env model)) ∧
      validate_model .sendErr model = .ok false ∧
      (∀ decoded, validate_model (.resp false decoded) model = .ok false) ∧
      validate_model (.resp true none) model = .ok false ∧
      (∀ names, validate_model (.resp true (some names)) model =
        .ok (names.contains model)) := by
  intro model
  refine ⟨?_, rfl, fun decoded => rfl, rfl, fun names => rfl⟩
  intro env
  match env with
  | .sendErr => rfl
  | .resp true none => rfl
  | .resp true (some names) => rfl
  | .resp false decoded => rfl

/-- C8: the synchronous invoker returns the `Timeout` failure whenever the
transport is slower than the configured timeout, regardless of what the
transport would eventually produce; on the success path it returns the
decoded frame's fragment with surrounding whitespace trimmed. -/
theorem generate_with_timeout_spec :
    ∀ (cfg : OllamaConfig) (env : GenEnv),
      (cfg.timeout_secs < env.delay →
        generate_with_timeout cfg env = .error .timedOut) ∧
      (∀ (resp : GenHttpResp) (t : RStr) (r : OllamaResponse),
        env.delay ≤ cfg.timeout_secs → env.send = .ok resp →
        resp.statusOk = true → resp.textRead = .ok t → resp.parsed = some r →
        generate_with_timeout cfg env = .ok (trimStr r.response)) := by
  intro cfg env
  constructor
  · intro h
    simp [generate_with_timeout, h]
  · intro resp t r hdelay hsend hstatus htext hparsed
    have hnl : ¬ cfg.timeout_secs < env.delay := Nat.not_lt.mpr hdelay
    simp [generate_with_timeout, hnl, hsend, hstatus, htext, hparsed]

theorem generate_with_timeout_spec_witness :
    (defaultConfig.timeout_secs < 121 ∧
      generate_with_timeout defaultConfig ⟨121, Except.error (str "refused")⟩ =
        Except.error GenError.timedOut) ∧
    ({ defaultConfig with timeout_secs := 1 : OllamaConfig }.timeout_secs < 3 ∧
      generate_with_timeout { defaultConfig with timeout_secs := 1 } genEnvSlowW =
        Except.error GenError.timedOut) ∧
    generate_with_timeout defaultConfig genEnvW = Except.ok (str "ls -la") :=
  ⟨⟨by decide,
    (generate_with_timeout_spec defaultConfig ⟨121, Except.error (str "refused")⟩).1 (by decide)⟩,
   ⟨by decide,
    (generate_with_timeout_spec { defaultConfig with timeout_secs := 1 } genEnvSlowW).1 (by decide)⟩,
   ((generate_with_timeout_spec defaultConfig genEnvW).2 genRespW (str "frame")
      ⟨str "gemma3:12b", str "  ls -la\n", true⟩ (by decide) (by decide) (by decide)
      (by decide) (by decide)).trans (by decide)⟩

theorem validate_model_eq_catalogHas (env : TagsEnv) (model : RStr) :
    validate_model env model = .ok (catalogHas env model) := by
  match env with
  | .sendErr => rfl
  | .resp true none => rfl
  | .resp true (some names) => rfl
  | .resp false decoded => rfl

/-- C9 counterexample: with the model already in the catalog, `pull_model`
returns success but still performs a network call — the validation's
`GET /api/tags` — so its request trace is not empty. -/
theorem pull_model_performs_network_call_cex :
    (pull_model pullEnvPresentW (str "gemma3:12b")).1 = .ok true ∧
    (pull_model pullEnvPresentW (str "gemma3:12b")).2 = [NetCall.getTags] ∧
    (pull_model pullEnvPresentW (str "gemma3:12b")).2 ≠ [] := by decide

/-- C9 (amended): when the model is already present, `pull_model` returns
success after the single catalog query of the validation itself and issues
no installation request; otherwise it issues one `POST /api/pull`, sleeps
the 2-second grace period, and returns the re-validation's verdict. -/
theorem pull_model_spec :
    ∀ (env : PullEnv) (model : RStr),
      (catalogHas env.tags1 model = true →
        pull_model env model = (.ok true, [.getTags])) ∧
      (catalogHas env.tags1 model = false →
        (∀ e, env.pullReq = .error e →
          pull_model env model = (.error (.connect e), [.getTags, .postPull model])) ∧
        (∀ resp : PullHttpResp, env.pullReq = .ok resp → resp.statusOk = true →
          pull_model env model =
            (.ok (catalogHas env.tags2 model),
             [.getTags, .postPull model, .sleepSecs 2, .getTags]))) := by
  intro env model
  constructor
  · intro h
    simp [pull_model, validate_model_t, validate_model_eq_catalogHas, h]
  · intro h
    constructor
    · intro e he
      simp [pull_model, validate_model_t, validate_model_eq_catalogHas, h, he]
    · intro resp hr hs
      simp [pull_model, validate_model_t, validate_model_eq_catalogHas, h, hr, hs]

theorem pull_model_spec_witness :
    (catalogHas pullEnvPresentW.tags1 (str "gemma3:12b") = true ∧
      pull_model pullEnvPresentW (str "gemma3:12b") = (.ok true, [.getTags])) ∧
    (catalogHas pullEnvAbsentW.tags1 (str "gemma3:12b") = false ∧
      pull_model pullEnvAbsentW (str "gemma3:12b") =
        (.ok true, [.getTags, .postPull (str "gemma3:12b"), .sleepSecs 2, .getTags])) :=
  ⟨⟨by decide, (pull_model_spec pullEnvPresentW (str "gemma3:12b")).1 (by decide)⟩,
   ⟨by decide,
    ((pull_model_spec pullEnvAbsentW (str "gemma3:12b")).2 (by decide)).2
        ⟨true, Except.ok (str "pulling")⟩ (by decide) (by decide) |>.trans (by decide)⟩⟩

lemma sends_append (a b : List StreamEvent) : sends (a ++ b) = sends a ++ sends b :=
  List.filterMap_append a b _

lemma slotWrites_append (a b : List StreamEvent) :
    slotWrites (a ++ b) = slotWrites a ++ slotWrites b :=
  List.filterMap_append a b _

lemma sends_map_send (l : List RStr) : sends (l.map StreamEvent.send) = l := by
  induction l with
  | nil => rfl
  | cons a t ih => simpa [sends, List.filterMap_cons] using ih

lemma slotWrites_map_send (l : List RStr) : slotWrites (l.map StreamEvent.send) = [] := by
  induction l with
  | nil => rfl
  | cons a t ih => simp [slotWrites, List.filterMap_cons, ih]

lemma sends_write (s : RStr) : sends [StreamEvent.write s] = [] := rfl

lemma slotWrites_write (s : RStr) : slotWrites [StreamEvent.write s] = [s] := rfl

lemma producer_success (b : Except RStr RStr) (chunks : List ChunkResult) :
    stream_response_producer (.httpResponse true b chunks) =
      (processChunks chunks).1.map StreamEvent.send ++
        [.write (processChunks chunks).2] := by
  simp [stream_response_producer]

lemma processLines_flatten (ls : List (Option OllamaResponse)) :
    (processLines ls).2 = (processLines ls).1.flatten := by
  induction ls with
  | nil => rfl
  | cons hd t ih =>
    cases hd with
    | none => simp [processLines, ih]
    | some r =>
      by_cases h : r.done
      · simp [processLines, h]
      · simp [processLines, h, ih]

lemma processChunks_fixture_flatten (cs : List (List OllamaResponse)) :
    (processChunks (cs.map (fun c => ChunkResult.ok (.text (c.map some))))).2 =
      (processChunks (cs.map (fun c => ChunkResult.ok (.text (c.map some))))).1.flatten := by
  induction cs with
  | nil => rfl
  | cons c t ih => simp [processChunks, processLines_flatten, ih]

/-- C1 counterexample: when the initial `send()` fails, the producer pushes
one diagnostic fragment and returns before the slot write, so the
`final_response` slot is written zero times — not exactly once. -/
theorem slot_unwritten_on_send_failure_cex :
    (slotWrites (stream_response_producer (.sendErr (str "connection refused")))).length ≠ 1 ∧
    slotWrites (stream_response_producer (.sendErr (str "connection refused"))) = [] ∧
    (slotWrites (stream_response_producer
        (.httpResponse false (Except.ok (str "model not found")) []))).length ≠ 1 := by
  decide

/-- C1 (amended): the slot is written at most once, always after every
fragment sent on the channel, and it is written exactly once precisely when
the HTTP exchange reaches the success-status path (covering normal
completion, decode exhaustion, and mid-stream transport errors); when the
request fails on send or the remote returns a non-success status, it is
never written. -/
theorem slot_write_at_most_once_after_sends :
    ∀ env : StreamEnv,
      (slotWrites (stream_response_producer env)).length ≤ 1 ∧
      ((slotWrites (stream_response_producer env)).length = 1 ↔
        isSuccessStatus env = true) ∧
      stream_response_producer env =
        (sends (stream_response_producer env)).map StreamEvent.send ++
          (slotWrites (stream_response_producer env)).map StreamEvent.write := by
  intro env
  match env with
  | .sendErr e =>
    refine ⟨by simp [stream_response_producer, slotWrites], ?_, ?_⟩
    · simp [stream_response_producer, slotWrites, isSuccessStatus]
    · simp [stream_response_producer, sends, slotWrites]
  | .httpResponse false b chunks =>
    refine ⟨by simp [stream_response_producer, slotWrites], ?_, ?_⟩
    · simp [stream_response_producer, slotWrites, isSuccessStatus]
    · simp [stream_response_producer, sends, slotWrites]
  | .httpResponse true b chunks =>
    refine ⟨?_, ?_, ?_⟩
    · simp [producer_success, slotWrites_append, slotWrites_map_send, slotWrites_write]
    · simp [producer_success, slotWrites_append, slotWrites_map_send, slotWrites_write,
        isSuccessStatus]
    · simp [producer_success, sends_append, slotWrites_append, sends_map_send,
        slotWrites_map_send, sends_write, slotWrites_write]

/-- C3 counterexample: frame `A` arrives with `done = true` in the first
chunk, yet frame `B` from the second chunk is still forwarded to the
channel — the `break` in the source only exits the inner per-chunk line
loop, and the outer chunk loop keeps reading. -/
theorem done_does_not_end_chunk_loop_cex :
    sends (stream_response_producer (.httpResponse true (Except.ok [])
        [.ok (.text [some ⟨str "m", str "A", true⟩, some ⟨str "m", str "skipped", false⟩]),
         .ok (.text [some ⟨str "m", str "B", false⟩])])) = [str "A", str "B"] ∧
    sends (stream_response_producer (.httpResponse true (Except.ok [])
        [.ok (.text [some ⟨str "m", str "A", true⟩, some ⟨str "m", str "skipped", false⟩]),
         .ok (.text [some ⟨str "m", str "B", false⟩])])) ≠ [str "A"] := by
  decide

/-- C3 (amended): a decoded frame with `done = true` ends only the current
chunk's line loop: the chunk's remaining lines are discarded, but the outer
chunk loop continues, so frames decoded from subsequent chunks are still
forwarded to the channel and appended to the accumulated string. -/
theorem done_ends_line_loop_only :
    ∀ (r : OllamaResponse) (tail : List (Option OllamaResponse))
      (rest : List ChunkResult) (b : Except RStr RStr),
      r.done = true →
      stream_response_producer
          (.httpResponse true b (.ok (.text (some r :: tail)) :: rest)) =
        StreamEvent.send r.response ::
          ((processChunks rest).1.map StreamEvent.send ++
            [StreamEvent.write (r.response ++ (processChunks rest).2)]) := by
  intro r tail rest b h
  simp [producer_success, processChunks, processLines, h]

theorem done_ends_line_loop_only_witness :
    (⟨str "m", str "A", true⟩ : OllamaResponse).done = true ∧
    stream_response_producer (.httpResponse true (Except.ok [])
        [.ok (.text [some ⟨str "m", str "A", true⟩, some ⟨str "m", str "skipped", false⟩]),
         .ok (.text [some ⟨str "m", str "B", false⟩])]) =
      StreamEvent.send (str "A") ::
        ((processChunks [.ok (.text [some ⟨str "m", str "B", false⟩])]).1.map StreamEvent.send ++
          [StreamEvent.write (str "A" ++
            (processChunks [.ok (.text [some ⟨str "m", str "B", false⟩])]).2)]) :=
  ⟨by decide,
   done_ends_line_loop_only ⟨str "m", str "A", true⟩ [some ⟨str "m", str "skipped", false⟩]
     [.ok (.text [some ⟨str "m", str "B", false⟩])] (Except.ok []) (by decide)⟩

/-- C4: for a fixture stream of well-formed frames with `done` only on the
last frame and no transport error, the concatenation (in order) of all
fragments sent on the channel equals the single value written into the
shared `final_response` slot. -/
theorem stream_concat_eq_final_slot :
    ∀ (cs : List (List OllamaResponse)) (b : Except RStr RStr),
      (∀ r ∈ cs.flatten.dropLast, r.done = false) →
      (∀ r : OllamaResponse, cs.flatten.getLast? = some r → r.done = true) →
      slotWrites (stream_response_producer (fixtureStream cs b)) =
        [(sends (stream_response_producer (fixtureStream cs b))).flatten] := by
  intro cs b hmid hlast
  simp only [fixtureStream, producer_success, sends_append, slotWrites_append,
    sends_map_send, slotWrites_map_send, sends_write, slotWrites_write,
    List.nil_append, List.append_nil]
  rw [processChunks_fixture_flatten]

theorem stream_concat_eq_final_slot_witness :
    (∀ r ∈ ([[⟨str "m", str "Hel", false⟩, ⟨str "m", str "lo ", false⟩],
             [⟨str "m", str "world", true⟩]] : List (List OllamaResponse)).flatten.dropLast,
      r.done = false) ∧
    (∀ r : OllamaResponse,
      ([[⟨str "m", str "Hel", false⟩, ⟨str "m", str "lo ", false⟩],
        [⟨str "m", str "world", true⟩]] : List (List OllamaResponse)).flatten.getLast? = some r →
      r.done = true) ∧
    slotWrites (stream_response_producer (fixtureStream
        [[⟨str "m", str "Hel", false⟩, ⟨str "m", str "lo ", false⟩],
         [⟨str "m", str "world", true⟩]] (Except.ok []))) =
      [(sends (stream_response_producer (fixtureStream
        [[⟨str "m", str "Hel", false⟩, ⟨str "m", str "lo ", false⟩],
         [⟨str "m", str "world", true⟩]] (Except.ok [])))).flatten] :=
  ⟨by decide, by decide,
   stream_concat_eq_final_slot
     [[⟨str "m", str "Hel", false⟩, ⟨str "m", str "lo ", false⟩],
      [⟨str "m", str "world", true⟩]] (Except.ok []) (by decide) (by decide)⟩

lemma dropWhile_eq_self_of_head? (p : Char → Bool) (l : RStr)
    (h : ∀ a, l.head? = some a → p a = false) : l.dropWhile p = l := by
  cases l with
  | nil => rfl
  | cons a tl => rw [List.dropWhile_cons, h a rfl]; simp

lemma trimStr_eq (s : RStr) : trimStr s = (s.dropWhile isWs).rdropWhile isWs := rfl

lemma trimStr_dropWhile (s : RStr) : (trimStr s).dropWhile isWs = trimStr s := by
  rw [trimStr_eq]
  apply dropWhile_eq_self_of_head?
  intro a ha
  obtain ⟨t, ht⟩ := List.rdropWhile_prefix isWs (s.dropWhile isWs)
  have hu : (s.dropWhile isWs).head? = some a := by
    rw [← ht]
    simp [ha]
  have h2 := List.head?_dropWhile_not isWs s
  rw [hu] at h2
  exact h2

lemma trimStr_idem (s : RStr) : trimStr (trimStr s) = trimStr s := by
  rw [trimStr_eq (trimStr s), trimStr_dropWhile s, trimStr_eq s,
    List.rdropWhile_idempotent]

lemma clean_output_trimmed (x y : RStr) (h : clean_command_response x = some y) :
    trimStr y = y := by
  unfold clean_command_response at h
  cases hq : stripQuoting (trimStr x) with
  | none => rw [hq] at h; simp at h
  | some c =>
    rw [hq] at h
    simp only [Option.map_some', Option.some.injEq] at h
    rw [← h]
    exact trimStr_idem _

lemma fence_head_eq_bq (l : RStr) (h : fenceMark.isPrefixOf l = true) :
    l.head? = some bq := by
  cases l with
  | nil => exact absurd h (by decide)
  | cons a tl =>
    have h' : (bq == a && List.isPrefixOf [bq, bq] tl) = true := h
    have hba : bq = a := eq_of_beq ((Bool.and_eq_true _ _).mp h').1
    simp [← hba]

/-- C2 counterexample: the sanitizer strips only one shell-language
specifier per call, so `"sh sh echo hello"` cleans to `"sh echo hello"`,
and re-applying the sanitizer strips again — `sanitize(sanitize(x))`
differs from `sanitize(x)`. -/
theorem clean_not_idempotent_cex :
    clean_command_response (str "sh sh echo hello") = some (str "sh echo hello") ∧
    clean_command_response (str "sh echo hello") = some (str "echo hello") ∧
    some (str "echo hello") ≠ some (str "sh echo hello") := by
  decide

/-- C2 (amended): the sanitizer is idempotent on every input whose sanitized
output neither begins with a backtick nor with one of the recognized
shell-language specifiers; in general re-applying it can strip one further
layer of formatting. -/
theorem clean_idempotent_on_stable_outputs :
    ∀ x y : RStr,
      clean_command_response x = some y →
      y.head? ≠ some bq →
      startsLang y = false →
      clean_command_response y = some y := by
  intro x y hxy hbt hlang
  have hytrim : trimStr y = y := clean_output_trimmed x y hxy
  have hfence : fenceMark.isPrefixOf y = false := by
    cases hf : fenceMark.isPrefixOf y with
    | false => rfl
    | true => exact absurd (fence_head_eq_bq y hf) hbt
  have hbtb : (y.head? == some bq) = false := beq_eq_false_iff_ne.mpr hbt
  have hq : stripQuoting y = some y := by
    simp [stripQuoting, hfence, hbtb]
  have hstr : stripLang y = y := by
    have h3 : (((str "sh ").isPrefixOf y = false) ∧ ((str "bash ").isPrefixOf y = false)) ∧
        ((str "shell ").isPrefixOf y = false) := by
      simpa [startsLang] using hlang
    simp [stripLang, h3.1.1, h3.1.2, h3.2]
  unfold clean_command_response
  rw [hytrim, hq]
  simp [hstr, hytrim]

theorem clean_idempotent_on_stable_outputs_witness :
    clean_command_response (str "`ls -la`") = some (str "ls -la") ∧
    (str "ls -la").head? ≠ some bq ∧
    startsLang (str "ls -la") = false ∧
    clean_command_response (str "ls -la") = some (str "ls -la") :=
  ⟨by decide, by decide, by decide,
   clean_idempotent_on_stable_outputs (str "`ls -la`") (str "ls -la")
     (by decide) (by decide) (by decide)⟩

/-- C10: the sanitizer is not total — it panics on degenerate inputs.  A
trimmed response equal to `` "`" `` enters the inline-backtick branch and
slices `cleaned[1..0]`, and a trimmed response whose fence markers surround
a single newline (`"```\n```"`) slices `cleaned[4..3]`; both slice bounds
are out of order and panic (modelled as `none`). -/
theorem clean_panics_on_degenerate_inputs :
    clean_command_response (str "`") = none ∧
    clean_command_response (str "```\n```") = none := by
  decide
